import Mathlib

/-!
Shallow embedding of the `green-carbon-api` monthly aggregation-and-classification
pipeline (apps/api/core/{parser,categorizer,carbon}.py and apps/api/main.py).

Modelling conventions:
* Python floats are modelled as exact rationals (`ℚ`).
* Python dicts are modelled as insertion-ordered association lists
  (`List (String × β)`); keys are unique by construction where the source
  builds them through item assignment.
* Python's stable `sorted` (and `list.sort`) is modelled by a stable
  insertion sort `pySorted`; `sorted(..., reverse=True)` keeps the original
  order of equal keys, which `pySorted` reproduces.
* `datetime.strptime`/`strftime` for the four date formats of the source is
  modelled down to CPython's regex behaviour (year exactly four digits,
  month/day one or two digits, full-string match, calendar validation).
* Python's `round(x, 1)` is modelled as round-half-to-even at one decimal.
-/

namespace GreenCarbon

/-! ### Python string primitives -/

/-- Python `needle in hay` prefix test on character lists. -/
def startsWithChars : List Char → List Char → Bool
  | [], _ => true
  | _ :: _, [] => false
  | a :: as, b :: bs => a = b && startsWithChars as bs

/-- Python `needle in hay`: contiguous substring test on character lists. -/
def substrChars (n : List Char) : List Char → Bool
  | [] => n.isEmpty
  | h :: t => startsWithChars n (h :: t) || substrChars n t

/-- Python `needle in hay` on strings (case-sensitive substring). -/
def pyIn (needle hay : String) : Bool := substrChars needle.toList hay.toList

/-- Python `str.strip()` on a character list. -/
def pyStrip (l : List Char) : List Char :=
  ((l.dropWhile Char.isWhitespace).reverse.dropWhile Char.isWhitespace).reverse

/-- Python `str.lower()` on a character list. -/
def pyLower (l : List Char) : List Char := l.map Char.toLower

/-! ### core/categorizer.py -/

/-- `_norm(s) = (s or "").strip().lower()` from core/categorizer.py. -/
def _norm (s : Option String) : String := ⟨pyLower (pyStrip (s.getD "").toList)⟩

/-- `CATEGORY_KEYWORDS` from core/categorizer.py, in declaration order. -/
def CATEGORY_KEYWORDS : List (String × List String) :=
  [("카페", ["카페", "커피", "스타벅스", "starbucks"]),
   ("한식", ["한식", "국밥", "김밥", "백반", "순대", "고기", "찌개"]),
   ("패션", ["의류", "패션", "나이키", "nike", "아디다스", "adidas", "무신사", "자라", "zara", "유니클로", "uniqlo"]),
   ("식품", ["마트", "이마트", "emart", "홈플", "롯데마트", "costco", "코스트코",
             "편의점", "cu", "gs25", "세븐일레븐", "seven eleven", "세븐"]),
   ("온라인", ["쿠팡", "coupang", "네이버페이", "naver pay", "스마일페이", "마켓컬리", "11번가", "g마켓", "gmarket", "ssg", "pay"]),
   ("택시", ["택시", "카카오t", "kakaot", "타다", "우버", "uber"]),
   ("교통", ["버스", "지하철", "전철", "철도", "ktx", "srt", "티머니", "tmoney", "교통"]),
   ("항공", ["항공", "대한항공", "korean air", "아시아나", "asiana", "제주항공", "진에어", "티웨이", "이스타"]),
   ("병원", ["병원", "의원", "치과", "한의원", "약국"]),
   ("문화", ["영화", "공연", "극장", "cgv", "메가박스", "megabox", "뮤지컬", "musical", "전시"]),
   ("배달", ["배달", "배달의민족", "배민", "baemin", "요기요", "yogiyo",
             "쿠팡이츠", "coupang eats", "coupangeats", "ubereats", "요기패스", "배민페이"])]

/-- The fixed category vocabulary: the `CATEGORY_KEYWORDS` keys plus the two
fallback labels `"온라인"` and `"기타"` (spec glossary). -/
def CATEGORY_VOCAB : List String :=
  ["카페", "한식", "패션", "식품", "온라인", "택시", "교통", "항공", "병원", "문화", "배달", "기타"]

/-- The concatenated normalized text `f"{_norm(merchant)} {_norm(category)}"`. -/
def catText (merchant category : Option String) : String :=
  _norm merchant ++ " " ++ _norm category

/-- Whether some keyword of a `CATEGORY_KEYWORDS` entry occurs in `text`. -/
def kwMatch (text : String) (p : String × List String) : Bool :=
  p.2.any (fun kw => pyIn (_norm (some kw)) text)

/-- The generic payment tokens of the secondary fallback in `infer_category`. -/
def PAY_TOKENS : List String := ["pay", "결제", "online", "on-line"]

/-- `infer_category` from core/categorizer.py. -/
def infer_category (merchant category : Option String) : String :=
  let text := catText merchant category
  if pyStrip text.toList = [] then "기타"
  else
    match CATEGORY_KEYWORDS.find? (kwMatch text) with
    | some p => p.1
    | none =>
      if PAY_TOKENS.any (fun t => pyIn t text) then "온라인" else "기타"

/-- Stable insertion of `a` into a list sorted by the strict "must come
before" relation `lt`; `a` is placed before every element it does not have
to follow, reproducing Python's stable sort for elements inserted from the
right. -/
def stableInsert (lt : α → α → Bool) (a : α) : List α → List α
  | [] => [a]
  | b :: l => if lt b a then b :: stableInsert lt a l else a :: b :: l

/-- Python's stable `sorted` with strict comparator `lt` (`lt x y` = "x must
come strictly before y"). -/
def pySorted (lt : α → α → Bool) (l : List α) : List α :=
  l.foldr (stableInsert lt) []

/-- Descending-by-second-component comparator used for
`sorted(..., key=lambda x: x[1], reverse=True)`. -/
def descBySnd (x y : α × ℚ) : Bool := decide (y.2 < x.2)

/-- `get_top_categories` from core/categorizer.py. -/
def get_top_categories (category_amounts : List (String × ℚ)) (top_n : ℕ := 3) : List String :=
  ((pySorted descBySnd category_amounts).take top_n).map (·.1)

/-- `generate_cluster_name_hint` from core/categorizer.py. -/
def generate_cluster_name_hint (top_categories : List String) : String :=
  if top_categories.isEmpty then "기타형"
  else String.intercalate "/" top_categories ++ "형"

/-- First-match association-list lookup (Python `dict` lookup; keys are
unique where the source builds the dict). -/
def alookup (k : String) : List (String × β) → Option β
  | [] => none
  | (k₂, v) :: l => if k₂ = k then some v else alookup k l

/-- `_top3_with_share` from core/categorizer.py. -/
def _top3_with_share (category_amounts category_ratios : List (String × ℚ)) :
    List (String × ℚ) :=
  let pairs := (category_amounts.filter (fun p => decide (0 < p.2))).map
    (fun p => (p.1, (alookup p.1 category_ratios).getD 0))
  (pySorted descBySnd pairs).take 3

/-- `classify_types` from core/categorizer.py (the near-duplicate classifier
variant; not called by main.py's pipeline). Returns
`(main_type, climate_type, behavior_type)`. -/
def classify_types (category_amounts category_ratios : List (String × ℚ))
    (carbon_score : Option ℚ) (carbon_kg total_amt : ℚ) (txn_count : ℕ) :
    String × String × String :=
  let top3 := _top3_with_share category_amounts category_ratios
  let main_type :=
    match top3 with
    | [] => "혼합형"
    | (c1, s1) :: rest =>
      let c2 : Option String := match rest with | (c2, _) :: _ => some c2 | [] => none
      let s2 : ℚ := match rest with | (_, s2) :: _ => s2 | [] => 0
      if s1 ≥ 0.45 then c1 ++ "형"
      else if (s1 ≥ 0.30 ∧ s2 ≥ 0.20) ∨ (s1 ≥ 0.25 ∧ s2 ≥ 0.25) then
        match c2 with
        | some c2v => c1 ++ "/" ++ c2v ++ "형"
        | none => c1 ++ "형"
      else "혼합형"
  let intensity_type :=
    let intensity := (carbon_kg / max total_amt 1) * 100000
    if intensity < 8 then "저탄소"
    else if intensity < 14 then "보통"
    else "고탄소(개선 필요)"
  let climate_type :=
    match carbon_score with
    | some cs =>
      if cs ≥ 0 then
        if cs ≥ 70 then "저탄소"
        else if cs ≥ 40 then "보통"
        else "고탄소(개선 필요)"
      else intensity_type
    | none => intensity_type
  let avg_ticket := total_amt / (max txn_count 1 : ℕ)
  let behavior_type :=
    if txn_count ≥ 15 ∧ avg_ticket < 15000 then "소액 다빈"
    else if txn_count ≤ 5 ∧ avg_ticket ≥ 50000 then "고액 소빈"
    else "균형"
  (main_type, climate_type, behavior_type)

/-! ### core/carbon.py -/

/-- `EMISSION_FACTORS` from core/carbon.py (kgCO2e per KRW), exact rationals. -/
def EMISSION_FACTORS : List (String × ℚ) :=
  [("항공", 0.00060), ("여행", 0.00060), ("택시", 0.00018), ("교통", 0.00012),
   ("버스", 0.00012), ("지하철", 0.00010), ("카페", 0.00012), ("음식점", 0.00012),
   ("한식", 0.00012), ("배달", 0.00015), ("식품", 0.00008), ("마트", 0.00008),
   ("패션", 0.00020), ("의류", 0.00020), ("온라인", 0.00009), ("문화", 0.00006),
   ("병원", 0.00006), ("기타", 0.00005)]

/-- `EMISSION_FACTORS.get(category, EMISSION_FACTORS["기타"])`. -/
def EF_of (category : String) : ℚ :=
  match alookup category EMISSION_FACTORS with
  | some v => v
  | none => (alookup "기타" EMISSION_FACTORS).getD 0

/-- `calculate_carbon_emission` from core/carbon.py: the accumulation loop
`total_carbon += total_amt * ratio * ef` over the ratio dict. -/
def calculate_carbon_emission (total_amt : ℚ) (category_ratios : List (String × ℚ)) : ℚ :=
  (category_ratios.map (fun p => total_amt * p.2 * EF_of p.1)).sum

/-- `calculate_carbon_score` from core/carbon.py. -/
def calculate_carbon_score (carbon_kg : ℚ) (peer_carbons : List ℚ) : ℚ :=
  if peer_carbons.isEmpty then 50
  else
    let percentile : ℚ :=
      (peer_carbons.countP (fun p => decide (p < carbon_kg)) : ℚ) /
        (peer_carbons.length : ℚ) * 100
    let score := 100 - percentile
    max 0 (min 100 score)

/-- The `category_emissions` dict built inside `generate_recommendations`:
`{c: total_amt * ratio * EF[c]}` over the ratio dict. -/
def category_emissions (total_amt : ℚ) (category_ratios : List (String × ℚ)) :
    List (String × ℚ) :=
  category_ratios.map (fun p => (p.1, total_amt * p.2 * EF_of p.1))

/-- Python list slicing `l[:n]` for an `int` bound `n` (negative bounds count
from the end). -/
def pySlice (l : List α) (n : ℤ) : List α :=
  if 0 ≤ n then l.take n.toNat else l.take (l.length - (-n).toNat)

/-- Round half to even on a rational (Python `round` tie behaviour). -/
def roundHalfEven (q : ℚ) : ℤ :=
  let f := Int.floor q
  let r := q - f
  if r < 1/2 then f
  else if 1/2 < r then f + 1
  else if f % 2 = 0 then f else f + 1

/-- Python `round(q, 1)`. -/
def pyRound1 (q : ℚ) : ℚ := (roundHalfEven (10 * q) : ℚ) / 10

/-- The category-specific `tips` table from `generate_recommendations`. -/
def TIPS : List (String × String) :=
  [("카페", "텀블러 사용 + 배달 대신 매장 이용"),
   ("한식", "배달 1회→매장 전환"),
   ("패션", "필요한 것만 구매 + 중고 거래 고려"),
   ("식품", "로컬 생산 식품 선택 + 포장 줄이기"),
   ("온라인", "필요한 것만 구매 + 배송 횟수 줄이기"),
   ("택시", "대중교통 이용 + 자전거/도보 고려"),
   ("교통", "대중교통 이용 + 자전거/도보 고려"),
   ("항공", "필요한 경우만 이용 + 기차 대안 고려"),
   ("병원", "예방 건강 관리로 방문 횟수 줄이기"),
   ("문화", "온라인 콘텐츠 활용 + 지역 문화 시설 이용"),
   ("기타", "불필요한 소비 줄이기")]

/-- One recommendation entry emitted by `generate_recommendations`. -/
structure Recommendation where
  category : String
  action : String
  expected_reduction_kg : ℚ
  tip : String
deriving DecidableEq, Repr

/-- The body of the `for category, emission in top_cats` loop of
`generate_recommendations`: a 15% reduction, rounded to one decimal. -/
def mkRecommendation (p : String × ℚ) : Recommendation :=
  { category := p.1
    action := p.1 ++ " 소비 15% 줄이기"
    expected_reduction_kg := pyRound1 (p.2 * 0.15)
    tip := (alookup p.1 TIPS).getD "해당 카테고리 소비 15% 줄이기" }

/-- `sorted_cats` of `generate_recommendations`: category emissions sorted
descending by emission (Python stable sort, `reverse=True`). -/
def sorted_cats (total_amt : ℚ) (category_ratios : List (String × ℚ)) :
    List (String × ℚ) :=
  pySorted descBySnd (category_emissions total_amt category_ratios)

/-- `top_cats = sorted_cats[:top_n]` of `generate_recommendations`. -/
def top_cats (total_amt : ℚ) (category_ratios : List (String × ℚ)) (top_n : ℤ) :
    List (String × ℚ) :=
  pySlice (sorted_cats total_amt category_ratios) top_n

/-- `generate_recommendations` from core/carbon.py. The `category_amounts`
argument is accepted and unused, exactly as in the source. -/
def generate_recommendations (category_amounts : List (String × ℚ)) (total_amt : ℚ)
    (category_ratios : List (String × ℚ)) (top_n : ℤ := 2) : List Recommendation :=
  (top_cats total_amt category_ratios top_n).map mkRecommendation

/-! ### core/parser.py — `parse_date`

`datetime.strptime` for the formats `%Y-%m-%d`, `%Y/%m/%d`, `%Y.%m.%d` and
`%Y%m%d` is modelled after CPython's `_strptime` regexes: `%Y` matches
exactly four digits, `%m` matches `1[0-2]|0[1-9]|[1-9]`, `%d` matches
`3[01]|[12]\d|0[1-9]|[1-9]`, the whole string must be consumed, and the
first regex match (in backtracking order) is then validated as a calendar
date (`datetime` raises on an out-of-range day, failing that format). -/

/-- Numeric value of a digit character. -/
def digitVal (c : Char) : ℕ := c.toNat - 48

/-- Value of a digit run (most significant first). -/
def readNat (l : List Char) : ℕ := l.foldl (fun acc c => 10 * acc + digitVal c) 0

/-- Gregorian leap year, as validated by `datetime`. -/
def isLeap (y : ℕ) : Bool := y % 4 = 0 && (y % 100 != 0 || y % 400 = 0)

/-- Days in a month, as validated by `datetime`. -/
def daysInMonth (y m : ℕ) : ℕ :=
  if m = 2 then (if isLeap y then 29 else 28)
  else if m = 4 ∨ m = 6 ∨ m = 9 ∨ m = 11 then 30
  else 31

/-- The `datetime(year, month, day)` constructor's validity check. -/
def validDate (y m d : ℕ) : Prop :=
  1 ≤ y ∧ y ≤ 9999 ∧ 1 ≤ m ∧ m ≤ 12 ∧ 1 ≤ d ∧ d ≤ daysInMonth y m

instance (y m d : ℕ) : Decidable (validDate y m d) := by
  unfold validDate; infer_instance

/-- `strptime` with a literal separator (`%Y-%m-%d` and friends): four year
digits, the separator, one or two month digits, the separator, one or two
day digits, nothing left over, and a valid calendar date. -/
def strptimeSep (sep : Char) (l : List Char) : Option (ℕ × ℕ × ℕ) :=
  let ys := l.takeWhile Char.isDigit
  match l.dropWhile Char.isDigit with
  | c1 :: r2 =>
    let ms := r2.takeWhile Char.isDigit
    match r2.dropWhile Char.isDigit with
    | c2 :: r4 =>
      let ds := r4.takeWhile Char.isDigit
      let r5 := r4.dropWhile Char.isDigit
      if ys.length = 4 ∧ c1 = sep ∧ (ms.length = 1 ∨ ms.length = 2) ∧ c2 = sep ∧
          (ds.length = 1 ∨ ds.length = 2) ∧ r5 = [] ∧
          validDate (readNat ys) (readNat ms) (readNat ds)
      then some (readNat ys, readNat ms, readNat ds)
      else none
    | [] => none
  | [] => none

/-- The `%m` regex alternatives `1[0-2]|0[1-9]|[1-9]` in CPython order:
each candidate is the month value paired with the unconsumed rest. -/
def monthCands : List Char → List (ℕ × List Char)
  | a :: b :: rest =>
    (if a = '1' ∧ '0' ≤ b ∧ b ≤ '2' then [(readNat [a, b], rest)] else []) ++
    (if a = '0' ∧ '1' ≤ b ∧ b ≤ '9' then [(readNat [a, b], rest)] else []) ++
    (if '1' ≤ a ∧ a ≤ '9' then [(readNat [a], b :: rest)] else [])
  | [a] => if '1' ≤ a ∧ a ≤ '9' then [(readNat [a], [])] else []
  | [] => []

/-- The `%d` regex alternatives `3[01]|[12]\d|0[1-9]|[1-9]` in CPython order. -/
def dayCands : List Char → List (ℕ × List Char)
  | a :: b :: rest =>
    (if a = '3' ∧ (b = '0' ∨ b = '1') then [(readNat [a, b], rest)] else []) ++
    (if (a = '1' ∨ a = '2') ∧ b.isDigit then [(readNat [a, b], rest)] else []) ++
    (if a = '0' ∧ '1' ≤ b ∧ b ≤ '9' then [(readNat [a, b], rest)] else []) ++
    (if '1' ≤ a ∧ a ≤ '9' then [(readNat [a], b :: rest)] else [])
  | [a] => if '1' ≤ a ∧ a ≤ '9' then [(readNat [a], [])] else []
  | [] => []

/-- `strptime` for `%Y%m%d`: four year digits, then the first
month/day split (in regex backtracking order) that consumes the whole
string, then calendar validation of that split only. -/
def strptimeCompact (l : List Char) : Option (ℕ × ℕ × ℕ) :=
  match l with
  | c1 :: c2 :: c3 :: c4 :: rest =>
    if c1.isDigit ∧ c2.isDigit ∧ c3.isDigit ∧ c4.isDigit then
      match (monthCands rest).findSome? (fun mc =>
          (dayCands mc.2).findSome? (fun dc =>
            if dc.2.isEmpty then some (mc.1, dc.1) else none)) with
      | some (m, d) =>
        if validDate (readNat [c1, c2, c3, c4]) m d then
          some (readNat [c1, c2, c3, c4], m, d)
        else none
      | none => none
    else none
  | _ => none

/-- A zero-padded two-digit rendering (`strftime` `%m`/`%d`). -/
def pad2 (n : ℕ) : String := ⟨[Char.ofNat (48 + n / 10), Char.ofNat (48 + n % 10)]⟩

/-- A zero-padded four-digit rendering (`strftime` `%Y`). -/
def pad4 (n : ℕ) : String :=
  ⟨[Char.ofNat (48 + n / 1000), Char.ofNat (48 + n / 100 % 10),
    Char.ofNat (48 + n / 10 % 10), Char.ofNat (48 + n % 10)]⟩

/-- A calendar date rendered with a given separator between the three
zero-padded fields. -/
def canonicalSep (sep : Char) (y m d : ℕ) : String :=
  pad4 y ++ String.singleton sep ++ pad2 m ++ String.singleton sep ++ pad2 d

/-- The canonical form `strftime("%Y-%m-%d")`. -/
def canonical (y m d : ℕ) : String := canonicalSep '-' y m d

/-- The compact form `YYYYMMDD`. -/
def compactForm (y m d : ℕ) : String := pad4 y ++ pad2 m ++ pad2 d

/-- The four-format attempt chain shared by `parse_date` and the inline date
loop of `main.predict` (priority order `-`, `/`, `.`, compact). -/
def tryFormats (l : List Char) : Option (ℕ × ℕ × ℕ) :=
  strptimeSep '-' l <|> strptimeSep '/' l <|> strptimeSep '.' l <|> strptimeCompact l

/-- `parse_date` from core/parser.py: falsy input rejected, input stripped,
the four formats tried in priority order, result re-rendered canonically. -/
def parse_date (date_str : String) : Option String :=
  if date_str = "" then none
  else
    match tryFormats (pyStrip date_str.toList) with
    | some (y, m, d) => some (canonical y m d)
    | none => none

/-! ### main.py — classification helpers and the `/predict` pipeline -/

/-- `DELIVERY_PAT` from main.py. -/
def DELIVERY_PAT : List String :=
  ["배달", "배민", "요기요", "쿠팡이츠", "ubereats", "delivery", "음식배달", "외식"]

/-- `CAFE_PAT` from main.py. -/
def CAFE_PAT : List String :=
  ["카페", "커피", "cafe", "coffee", "스타벅스", "이디야", "할리스", "투썸", "메가커피"]

/-- `TRANS_PAT` from main.py. -/
def TRANS_PAT : List String :=
  ["교통", "대중교통", "지하철", "버스", "택시", "transport", "subway", "bus", "taxi", "tmoney", "카카오t"]

/-- `_contains_any` from main.py. -/
def _contains_any (text : String) (pats : List String) : Bool :=
  pats.any (fun p => substrChars (pyLower p.toList) (pyLower text.toList))

/-- `bucket_ratios` from main.py: accumulate the delivery/cafe/transport
shares of a ratio dict (first matching bucket wins per category). -/
def bucket_ratios (cat_ratio : List (String × ℚ)) : List (String × ℚ) :=
  let t := cat_ratio.foldl
    (fun (acc : ℚ × ℚ × ℚ) p =>
      if _contains_any p.1 DELIVERY_PAT then (acc.1 + p.2, acc.2.1, acc.2.2)
      else if _contains_any p.1 CAFE_PAT then (acc.1, acc.2.1 + p.2, acc.2.2)
      else if _contains_any p.1 TRANS_PAT then (acc.1, acc.2.1, acc.2.2 + p.2)
      else acc)
    (0, 0, 0)
  [("delivery", t.1), ("cafe", t.2.1), ("transport", t.2.2)]

/-- `classify_main_type` from main.py (thresholds 0.35 / 0.25 / 0.25 and the
mixed-type rule on the top two bucket shares). -/
def classify_main_type (cat_ratio : List (String × ℚ)) : String :=
  let br := bucket_ratios cat_ratio
  let d := ((alookup "delivery" br).getD 0)
  let c := ((alookup "cafe" br).getD 0)
  let tr := ((alookup "transport" br).getD 0)
  if d ≥ 0.35 then "배달형"
  else if c ≥ 0.25 then "카페형"
  else if tr ≥ 0.25 then "교통형"
  else
    match pySorted descBySnd br with
    | t0 :: t1 :: _ =>
      if t0.2 - t1.2 ≤ 0.07 ∧ t0.2 ≥ 0.18 ∧ t1.2 ≥ 0.18 then "혼합형" else "기타형"
    | _ => "기타형"

/-- `classify_climate_type` from main.py, with the process-wide sorted peer
distribution passed explicitly. `bisect_right` on the ascending-sorted list
is the count of peer values `≤ carbon_kg`. -/
def classify_climate_type (carbon_kg : ℚ) (peer_sorted : List ℚ) : String :=
  if peer_sorted.isEmpty then "보통"
  else
    let pos : ℕ := peer_sorted.countP (fun v => decide (v ≤ carbon_kg))
    let pct : ℚ := (pos : ℚ) / (peer_sorted.length : ℚ)
    if pct ≥ 0.80 then "고탄소(개선 필요)"
    else if pct ≤ 0.20 then "저탄소"
    else "보통"

/-- `classify_behavior_type` from main.py (the numeric comparisons never
raise, so the `try/except` is dead). -/
def classify_behavior_type (txn_count : ℕ) (avg_ticket : ℚ) : String :=
  if txn_count ≥ 20 ∧ avg_ticket ≤ 10000 then "소액 다빈"
  else if txn_count ≤ 5 ∧ avg_ticket ≥ 30000 then "고액 소빈"
  else "균형"

/-- A decoded input row as consumed by `predict`'s aggregation loop. The
`amount` field holds the value of `float(str(row["amount"]).replace(",", ""))`
(`none` when that conversion fails and the row is dropped); `merchant` is the
row's merchant text (the `merchant_name` fallback of the source resolves to
the same value for rows produced by the parsers). -/
structure RawRow where
  date : String
  amount : Option ℚ
  merchant : String
  category : String

/-- One month's accumulator of `predict`'s `monthly` defaultdict. -/
structure MonthAcc where
  category_amounts : List (String × ℚ)
  total_amt : ℚ
  txn_count : ℕ
deriving DecidableEq, Repr

/-- Replace the value at the first occurrence of key `k` (Python item
assignment on an existing key). -/
def updateAssoc (k : String) (f : β → β) : List (String × β) → List (String × β)
  | [] => []
  | (k₂, v) :: l => if k₂ = k then (k₂, f v) :: l else (k₂, v) :: updateAssoc k f l

/-- A `defaultdict` access-and-mutate: update in place when the key exists,
otherwise append the mutated default at the end (dict insertion order). -/
def upsertAssoc (k : String) (init : β) (f : β → β) (m : List (String × β)) :
    List (String × β) :=
  match alookup k m with
  | some _ => updateAssoc k f m
  | none => m ++ [(k, f init)]

/-- `monthly[ym]["category_amounts"][cat] += amount` (`defaultdict(float)`). -/
def addAmount (cat : String) (amt : ℚ) (ca : List (String × ℚ)) : List (String × ℚ) :=
  upsertAssoc cat 0 (· + amt) ca

/-- The `year_month = dt.strftime("%Y-%m")` key. -/
def ymKey (y m : ℕ) : String := pad4 y ++ "-" ++ pad2 m

/-- One iteration of `predict`'s aggregation loop: parse the date with the
four-format chain (no stripping in this inline loop), drop the row when the
date or the amount is unparseable, infer the category, and accumulate. -/
def aggStep (monthly : List (String × MonthAcc)) (row : RawRow) :
    List (String × MonthAcc) :=
  match tryFormats row.date.toList with
  | none => monthly
  | some (y, m, _) =>
    match row.amount with
    | none => monthly
    | some amount =>
      let cat := infer_category (some row.merchant) (some row.category)
      upsertAssoc (ymKey y m) ⟨[], 0, 0⟩
        (fun acc =>
          ⟨addAmount cat amount acc.category_amounts,
           acc.total_amt + amount, acc.txn_count + 1⟩)
        monthly

/-- `predict`'s whole aggregation loop. -/
def aggregateMonthly (rows : List RawRow) : List (String × MonthAcc) :=
  rows.foldl aggStep []

/-- One serialized monthly result of `predict`. -/
structure MonthlyResult where
  month : String
  total_amt : ℚ
  cluster_name_hint : String
  carbon_kg : ℚ
  carbon_score : ℚ
  main_type : String
  climate_type : String
  behavior_type : String
  recommendations : List Recommendation
deriving DecidableEq, Repr

/-- Ascending string comparator (Python `sorted` on the `YYYY-MM` keys). -/
def strLt (a b : String) : Bool := decide (a < b)

/-- Ascending rational comparator (Python `sorted` on the peer values). -/
def ratLt (a b : ℚ) : Bool := decide (a < b)

/-- The per-month result construction of `predict` (the body of its result
loop, after the `total_amt <= 0` guard). -/
def buildMonthlyResult (peer_carbons : List ℚ) (ym : String) (acc : MonthAcc) :
    MonthlyResult :=
  let total_amt := acc.total_amt
  let txn_count := if acc.txn_count = 0 then 1 else acc.txn_count
  let avg_ticket := total_amt / (txn_count : ℚ)
  let cat_amt := acc.category_amounts
  let cat_ratio := cat_amt.map (fun p => (p.1, p.2 / total_amt))
  let carbon_kg := calculate_carbon_emission total_amt cat_ratio
  let carbon_score := calculate_carbon_score carbon_kg peer_carbons
  { month := ym
    total_amt := pyRound1 total_amt
    cluster_name_hint := generate_cluster_name_hint (get_top_categories cat_amt 3)
    carbon_kg := pyRound1 carbon_kg
    carbon_score := pyRound1 carbon_score
    main_type := classify_main_type cat_ratio
    climate_type := classify_climate_type carbon_kg (pySorted ratLt peer_carbons)
    behavior_type := classify_behavior_type txn_count avg_ticket
    recommendations := generate_recommendations cat_amt total_amt cat_ratio 2 }

/-- `predict` from main.py, from decoded rows and the process-wide peer
distribution (peer values as loaded; the sorted copy is taken inside):
aggregate by month, then emit one result per month with positive total,
months in ascending key order. -/
def predict (rows : List RawRow) (peer_carbons : List ℚ) : List MonthlyResult :=
  let monthly := aggregateMonthly rows
  let sortedKeys := pySorted strLt (monthly.map (·.1))
  sortedKeys.filterMap (fun ym =>
    match alookup ym monthly with
    | none => none
    | some acc =>
      if acc.total_amt ≤ 0 then none
      else some (buildMonthlyResult peer_carbons ym acc))

/-- The keep-condition of `predict`'s result loop on a month key: the key is
aggregated and its total is strictly positive. -/
def predKeep (monthly : List (String × MonthAcc)) (ym : String) : Bool :=
  match alookup ym monthly with
  | none => false
  | some acc => decide (0 < acc.total_amt)

/-! ### Comparison definitions written from the claims' wording -/

/-- The behaviour-type rule exactly as claim C2 words it (thresholds 15 /
15,000 and 5 / 50,000); written from the claim, for comparison with the
source's `classify_behavior_type`. -/
def behavior_type_claimed (txn_count : ℕ) (avg_ticket : ℚ) : String :=
  if txn_count ≥ 15 ∧ avg_ticket < 15000 then "소액 다빈"
  else if txn_count ≤ 5 ∧ avg_ticket ≥ 50000 then "고액 소빈"
  else "균형"

/-- The behaviour-type rule of the amended claim C2 (the thresholds the
pipeline's `classify_behavior_type` actually uses: 20 / ≤10,000 and
5 / ≥30,000); written from the amended claim, for comparison. -/
def behavior_type_amended (txn_count : ℕ) (avg_ticket : ℚ) : String :=
  if txn_count ≥ 20 ∧ avg_ticket ≤ 10000 then "소액 다빈"
  else if txn_count ≤ 5 ∧ avg_ticket ≥ 30000 then "고액 소빈"
  else "균형"

/-! ## Helper lemmas -/

theorem stableInsert_perm (lt : α → α → Bool) (a : α) (l : List α) :
    (stableInsert lt a l).Perm (a :: l) := by
  induction l with
  | nil => simp [stableInsert]
  | cons b t ih =>
    by_cases h : lt b a = true
    · simpa [stableInsert, h] using ((ih.cons b).trans (List.Perm.swap a b t))
    · simp [stableInsert, h]

theorem pySorted_perm (lt : α → α → Bool) (l : List α) : (pySorted lt l).Perm l := by
  induction l with
  | nil => simp [pySorted]
  | cons a t ih =>
    have : pySorted lt (a :: t) = stableInsert lt a (pySorted lt t) := rfl
    rw [this]
    exact (stableInsert_perm lt a (pySorted lt t)).trans (ih.cons a)

theorem pairwise_stableInsert (lt : α → α → Bool)
    (hasym : ∀ x y, lt x y = true → lt y x = false)
    (hneg : ∀ x y z, lt x y = false → lt y z = false → lt x z = false)
    (a : α) (l : List α) (h : l.Pairwise (fun x y => lt y x = false)) :
    (stableInsert lt a l).Pairwise (fun x y => lt y x = false) := by
  induction l with
  | nil => simp [stableInsert]
  | cons b t ih =>
    rcases List.pairwise_cons.mp h with ⟨hb, ht⟩
    by_cases hba : lt b a = true
    · rw [stableInsert, if_pos hba]
      refine List.pairwise_cons.mpr ⟨?_, ih ht⟩
      intro c hc
      rcases List.mem_cons.mp ((stableInsert_perm lt a t).mem_iff.mp hc) with hc | hc
      · subst hc; exact hasym _ _ hba
      · exact hb c hc
    · rw [stableInsert, if_neg hba]
      push_neg at hba
      refine List.pairwise_cons.mpr ⟨?_, h⟩
      intro c hc
      rcases List.mem_cons.mp hc with hc | hc
      · subst hc; exact Bool.eq_false_iff.mpr hba
      · exact hneg c b a (hb c hc) (Bool.eq_false_iff.mpr hba)

theorem pairwise_pySorted (lt : α → α → Bool)
    (hasym : ∀ x y, lt x y = true → lt y x = false)
    (hneg : ∀ x y z, lt x y = false → lt y z = false → lt x z = false)
    (l : List α) : (pySorted lt l).Pairwise (fun x y => lt y x = false) := by
  induction l with
  | nil => simp [pySorted]
  | cons a t ih => exact pairwise_stableInsert lt hasym hneg a (pySorted lt t) ih

theorem descBySnd_asymm (x y : α × ℚ) (h : descBySnd x y = true) :
    descBySnd y x = false := by
  simp only [descBySnd, decide_eq_true_eq] at h
  simpa [descBySnd] using le_of_lt h

theorem descBySnd_negtrans (x y z : α × ℚ) (h1 : descBySnd x y = false)
    (h2 : descBySnd y z = false) : descBySnd x z = false := by
  simp only [descBySnd, decide_eq_false_iff_not, not_lt] at h1 h2 ⊢
  exact h1.trans h2

theorem pairwise_pySorted_desc (l : List (α × ℚ)) :
    (pySorted descBySnd l).Pairwise (fun x y => y.2 ≤ x.2) := by
  refine (pairwise_pySorted descBySnd descBySnd_asymm descBySnd_negtrans l).imp ?_
  intro a b hab
  simpa [descBySnd, not_lt] using Bool.eq_false_iff.mp hab

/-! ## C1 — continuous carbon score -/

/-- C1: for every `carbon_kg` and peer list, `calculate_carbon_score` lies in
`[0, 100]`; the empty peer list gives exactly 50; a nonempty peer list gives
`100 − 100·(count of peers strictly below carbon_kg)/(peer count)` clamped to
`[0, 100]`; and on peers `[5,10,15,20,25]` with `carbon_kg = 12` the score is
`60`. -/
theorem calculate_carbon_score_spec (c : ℚ) (peers : List ℚ) :
    (0 ≤ calculate_carbon_score c peers ∧ calculate_carbon_score c peers ≤ 100) ∧
    (peers = [] → calculate_carbon_score c peers = 50) ∧
    (peers ≠ [] → calculate_carbon_score c peers =
      max 0 (min 100
        (100 - 100 * (peers.countP (fun p => decide (p < c)) : ℚ) / (peers.length : ℚ)))) ∧
    calculate_carbon_score 12 [5, 10, 15, 20, 25] = 60 := by
  have h60 : calculate_carbon_score 12 [5, 10, 15, 20, 25] = 60 := by
    have hcn : ([5, 10, 15, 20, 25] : List ℚ).countP (fun p => decide (p < 12)) = 2 := by
      decide
    rw [calculate_carbon_score]
    norm_num [hcn]
  by_cases hp : peers = []
  · subst hp
    refine ⟨⟨by norm_num [calculate_carbon_score], by norm_num [calculate_carbon_score]⟩,
      fun _ => by norm_num [calculate_carbon_score], fun h => absurd rfl h, h60⟩
  · have hE : peers.isEmpty = false := by simpa [List.isEmpty_iff] using hp
    have hscore : calculate_carbon_score c peers =
        max 0 (min 100
          (100 - 100 * (peers.countP (fun p => decide (p < c)) : ℚ) / (peers.length : ℚ))) := by
      rw [calculate_carbon_score, hE]
      ring_nf
      simp
    refine ⟨⟨?_, ?_⟩, fun h => absurd h hp, fun _ => hscore, h60⟩
    · rw [hscore]; exact le_max_left _ _
    · rw [hscore]
      exact max_le (by norm_num) (min_le_left _ _)

/-- Witness for C1 at a concrete input (empty-peer hypothesis discharged). -/
theorem calculate_carbon_score_spec_witness :
    calculate_carbon_score 12 ([] : List ℚ) = 50 :=
  (calculate_carbon_score_spec 12 []).2.1 rfl

/-! ## C6 — score monotonicity -/

/-- C6: for a fixed peer distribution the continuous score is monotonically
non-increasing in the emission value. -/
theorem calculate_carbon_score_monotone (peers : List ℚ) (a b : ℚ) (hab : a < b) :
    calculate_carbon_score b peers ≤ calculate_carbon_score a peers := by
  unfold calculate_carbon_score
  cases hE : peers.isEmpty with
  | true => simp
  | false =>
    simp only [Bool.false_eq_true, if_false]
    have hne : peers ≠ [] := by simpa [List.isEmpty_iff] using hE
    have hlen : 0 < (peers.length : ℚ) := by
      exact_mod_cast List.length_pos.mpr hne
    have hcount : (peers.countP (fun p => decide (p < a)) : ℚ) ≤
        (peers.countP (fun p => decide (p < b)) : ℚ) := by
      exact_mod_cast List.countP_mono_left
        (fun x _ hx => by
          simp only [decide_eq_true_eq] at hx ⊢
          exact hx.trans hab)
    gcongr

/-- Witness for C6 at a concrete input. -/
theorem calculate_carbon_score_monotone_witness :
    calculate_carbon_score 12 [(5 : ℚ), 10, 15, 20, 25] ≤
      calculate_carbon_score 3 [(5 : ℚ), 10, 15, 20, 25] :=
  calculate_carbon_score_monotone [(5 : ℚ), 10, 15, 20, 25] 3 12 (by norm_num)

/-! ## C3 — categorical climate type -/

/-- C3: `classify_climate_type` returns the moderate label on an empty peer
list; otherwise, with fractional rank `pos/n` (`pos` = count of peer values
`≤ carbon_kg`, i.e. the insertion position in the ascending-sorted peer
list), rank `≥ 0.80` gives the high-carbon label, rank `≤ 0.20` the
low-carbon label, and anything in between the moderate label. -/
theorem classify_climate_type_spec (c : ℚ) (peers : List ℚ) :
    (peers = [] → classify_climate_type c peers = "보통") ∧
    (peers ≠ [] →
      ((4/5 ≤ (peers.countP (fun v => decide (v ≤ c)) : ℚ) / (peers.length : ℚ) →
         classify_climate_type c peers = "고탄소(개선 필요)") ∧
       ((peers.countP (fun v => decide (v ≤ c)) : ℚ) / (peers.length : ℚ) ≤ 1/5 →
         classify_climate_type c peers = "저탄소") ∧
       (1/5 < (peers.countP (fun v => decide (v ≤ c)) : ℚ) / (peers.length : ℚ) →
        (peers.countP (fun v => decide (v ≤ c)) : ℚ) / (peers.length : ℚ) < 4/5 →
         classify_climate_type c peers = "보통"))) := by
  constructor
  · intro h; subst h; rfl
  · intro hne
    have hE : peers.isEmpty = false := by simpa [List.isEmpty_iff] using hne
    set pct : ℚ := (peers.countP (fun v => decide (v ≤ c)) : ℚ) / (peers.length : ℚ) with hpct
    have hcl : classify_climate_type c peers =
        (if pct ≥ 0.80 then "고탄소(개선 필요)" else if pct ≤ 0.20 then "저탄소" else "보통") := by
      rw [classify_climate_type, hE]; rfl
    refine ⟨?_, ?_, ?_⟩
    · intro h
      rw [hcl, if_pos (by norm_num; exact h)]
    · intro h
      have h' : ¬ (pct ≥ 0.80) := by norm_num; linarith
      rw [hcl, if_neg h', if_pos (by norm_num; exact h)]
    · intro h1 h2
      have h' : ¬ (pct ≥ 0.80) := by norm_num; linarith
      have h'' : ¬ (pct ≤ 0.20) := by norm_num; linarith
      rw [hcl, if_neg h', if_neg h'']

/-- Witness for C3 at a concrete input (empty-peer hypothesis discharged). -/
theorem classify_climate_type_spec_witness :
    classify_climate_type 12 ([] : List ℚ) = "보통" :=
  (classify_climate_type_spec 12 []).1 rfl

/-! ## C2 — behaviour-type classification (corrected) -/

/-- C2 counterexample: at `transaction_count = 15`, `average_ticket = 14000`
the claim's rule (thresholds 15 / <15,000) yields the frequent small-ticket
label, but the pipeline's `classify_behavior_type` yields the balanced
label: the claimed thresholds are not the ones the pipeline uses. -/
theorem classify_behavior_type_claim_counterexample :
    classify_behavior_type 15 14000 = "균형" ∧
    behavior_type_claimed 15 14000 = "소액 다빈" ∧
    classify_behavior_type 15 14000 ≠ behavior_type_claimed 15 14000 := by
  refine ⟨rfl, rfl, ?_⟩; decide

/-- C2 (amended): the behaviour-type classification used by the pipeline is:
with `average_ticket = total_amount / max(transaction_count, 1)`,
`transaction_count ≥ 20` and `average_ticket ≤ 10000` yields the frequent
small-ticket label, `transaction_count ≤ 5` and `average_ticket ≥ 30000`
yields the rare large-ticket label, and every other combination yields the
balanced label; `buildMonthlyResult` (the body of `predict`'s result loop)
invokes exactly this rule at that average ticket. -/
theorem classify_behavior_type_amended_spec :
    (∀ (txn : ℕ) (avg : ℚ), classify_behavior_type txn avg = behavior_type_amended txn avg) ∧
    (∀ (peers : List ℚ) (ym : String) (acc : MonthAcc),
      (buildMonthlyResult peers ym acc).behavior_type =
        behavior_type_amended (if acc.txn_count = 0 then 1 else acc.txn_count)
          (acc.total_amt / ((if acc.txn_count = 0 then 1 else acc.txn_count : ℕ) : ℚ))) := by
  constructor
  · intro txn avg; rfl
  · intro peers ym acc; rfl

/-! ## C4 — category inference -/

theorem alookup_mem {k : String} {v : β} {l : List (String × β)}
    (h : alookup k l = some v) : (k, v) ∈ l := by
  induction l with
  | nil => cases h
  | cons hd t ih =>
    obtain ⟨k₂, w⟩ := hd
    rw [alookup] at h
    split_ifs at h with hk
    · injection h with hv
      subst hk hv
      exact List.mem_cons_self _ _
    · exact List.mem_cons_of_mem _ (ih h)

/-- C4: `infer_category` always returns a member of the fixed vocabulary; it
returns the catch-all immediately when both normalized inputs are empty;
otherwise it returns the key of the first `CATEGORY_KEYWORDS` entry (in
declaration order) with a keyword occurring in the concatenated normalized
text, and when no entry matches it returns the online-commerce category
exactly when a generic payment token occurs, the catch-all otherwise.
(Determinism is immediate: `infer_category` is a pure function.) -/
theorem infer_category_spec (m c : Option String) :
    infer_category m c ∈ CATEGORY_VOCAB ∧
    (_norm m = "" ∧ _norm c = "" → infer_category m c = "기타") ∧
    (pyStrip (catText m c).toList ≠ [] →
      ∀ p, CATEGORY_KEYWORDS.find? (kwMatch (catText m c)) = some p →
        infer_category m c = p.1) ∧
    (pyStrip (catText m c).toList ≠ [] →
      CATEGORY_KEYWORDS.find? (kwMatch (catText m c)) = none →
        (PAY_TOKENS.any (fun t => pyIn t (catText m c)) = true →
          infer_category m c = "온라인") ∧
        (PAY_TOKENS.any (fun t => pyIn t (catText m c)) = false →
          infer_category m c = "기타")) := by
  by_cases hT : pyStrip (catText m c).toList = []
  · have hval : infer_category m c = "기타" := by
      simp only [infer_category, hT, if_true]
    refine ⟨by rw [hval]; decide, fun _ => hval, fun hne => absurd hT hne,
      fun hne => absurd hT hne⟩
  · have hTd : ¬ pyStrip (catText m c).data = [] := by
      simpa [String.toList] using hT
    refine ⟨?_, ?_, ?_, ?_⟩
    · cases hF : CATEGORY_KEYWORDS.find? (kwMatch (catText m c)) with
      | some p =>
        have hval : infer_category m c = p.1 := by
          simp [infer_category, hTd, hF]
        rw [hval]
        have hp := List.mem_of_find?_eq_some hF
        fin_cases hp <;> decide
      | none =>
        cases hP : PAY_TOKENS.any (fun t => pyIn t (catText m c)) with
        | true =>
          have hval : infer_category m c = "온라인" := by
            simp [infer_category, hTd, hF, hP]
          rw [hval]; decide
        | false =>
          have hval : infer_category m c = "기타" := by
            simp [infer_category, hTd, hF, hP]
          rw [hval]; decide
    · intro ⟨h1, h2⟩
      exfalso
      apply hT
      rw [catText, h1, h2]
      decide
    · intro _ p hF
      simp [infer_category, hTd, hF]
    · intro _ hF
      constructor
      · intro hP
        simp [infer_category, hTd, hF, hP]
      · intro hP
        simp [infer_category, hTd, hF, hP]

/-- Witness for C4 at a concrete input (both inputs empty). -/
theorem infer_category_spec_witness :
    infer_category (some "") (some "") = "기타" :=
  (infer_category_spec (some "") (some "")).2.1 ⟨by decide, by decide⟩

/-! ## C10 — emission decomposition -/

theorem EF_of_nonneg (cat : String) : 0 ≤ EF_of cat := by
  cases hF : alookup cat EMISSION_FACTORS with
  | none =>
    have hd : alookup "기타" EMISSION_FACTORS = some 0.00005 := rfl
    simp only [EF_of, hF, hd, Option.getD_some]
    norm_num
  | some v =>
    simp only [EF_of, hF]
    have hm := alookup_mem hF
    fin_cases hm <;> norm_num

/-- C10: the per-category emissions built inside `generate_recommendations`
sum to exactly `calculate_carbon_emission` on the same inputs; the
pre-rounding 15% reductions over all categories sum to 15% of that
`carbon_kg`; and the estimator is non-negative whenever the total amount and
all ratios are non-negative. -/
theorem emission_decomposition_spec (total : ℚ) (ratios : List (String × ℚ)) :
    ((category_emissions total ratios).map (·.2)).sum =
      calculate_carbon_emission total ratios ∧
    ((category_emissions total ratios).map (fun p => p.2 * 0.15)).sum =
      0.15 * calculate_carbon_emission total ratios ∧
    (0 ≤ total → (∀ p ∈ ratios, 0 ≤ p.2) →
      0 ≤ calculate_carbon_emission total ratios) := by
  refine ⟨?_, ?_, ?_⟩
  · simp [category_emissions, calculate_carbon_emission, List.map_map, Function.comp_def]
  · have h1 : (category_emissions total ratios).map (fun p => p.2 * 0.15) =
        ratios.map (fun p => (fun q : String × ℚ => total * q.2 * EF_of q.1) p * 0.15) := by
      simp [category_emissions, List.map_map, Function.comp_def]
    rw [h1, List.sum_map_mul_right, calculate_carbon_emission, mul_comm]
  · intro htotal hratios
    rw [calculate_carbon_emission]
    apply List.sum_nonneg
    intro x hx
    simp only [List.mem_map] at hx
    obtain ⟨p, hp, rfl⟩ := hx
    exact mul_nonneg (mul_nonneg htotal (hratios p hp)) (EF_of_nonneg p.1)

/-- Witness for C10 at a concrete input (non-negativity hypotheses
discharged). -/
theorem emission_decomposition_spec_witness :
    0 ≤ calculate_carbon_emission 1000 [("카페", 1)] :=
  (emission_decomposition_spec 1000 [("카페", 1)]).2.2 (by norm_num) (by decide)

/-! ## C8 — recommendation generation (corrected) -/

/-- C8 counterexample: for a negative requested `top_n` the Python slice
`sorted_cats[:top_n]` keeps all but the last `|top_n|` entries, so the
recommendation count is not bounded by `top_n`: with two categories and
`top_n = -1` the source produces one recommendation, and `1 ≤ -1` is false. -/
theorem generate_recommendations_claim_counterexample :
    ¬ (((generate_recommendations [("카페", 5000), ("택시", 5000)] 10000
          [("카페", 1/2), ("택시", 1/2)] (-1)).length : ℤ) ≤ -1) := by
  have hsorted : (sorted_cats 10000 [("카페", 1/2), ("택시", 1/2)]).length = 2 :=
    (pySorted_perm descBySnd _).length_eq
  have hlen : (generate_recommendations [("카페", 5000), ("택시", 5000)] 10000
      [("카페", 1/2), ("택시", 1/2)] (-1)).length = 1 := by
    rw [generate_recommendations, List.length_map, top_cats, pySlice,
      if_neg (by norm_num), List.length_take, hsorted]
    decide
  rw [hlen]
  decide

/-- C8 (amended, restricted to `top_n ≥ 0`): the recommendations are the
slice `top_cats` of the category emissions sorted descending by emission
(`total_amount * ratio * emission_factor`, catch-all factor for unknown
categories), mapped through the fixed 15%-reduction entry builder; the slice
is descending in emission, has at most `top_n` entries, draws its entries
from the category-emission table, and each entry's `expected_reduction_kg`
is 15% of its category's emission rounded to one decimal. -/
theorem generate_recommendations_spec (ca : List (String × ℚ)) (total : ℚ)
    (ratios : List (String × ℚ)) (n : ℤ) (hn : 0 ≤ n) :
    generate_recommendations ca total ratios n =
      (top_cats total ratios n).map mkRecommendation ∧
    (top_cats total ratios n).Pairwise (fun x y => y.2 ≤ x.2) ∧
    ((top_cats total ratios n).length : ℤ) ≤ n ∧
    ∀ p ∈ top_cats total ratios n,
      p ∈ category_emissions total ratios ∧
      (mkRecommendation p).expected_reduction_kg = pyRound1 (p.2 * 0.15) := by
  have htake : top_cats total ratios n = (sorted_cats total ratios).take n.toNat := by
    rw [top_cats, pySlice, if_pos hn]
  refine ⟨rfl, ?_, ?_, ?_⟩
  · rw [htake]
    exact List.Pairwise.sublist (List.take_sublist _ _) (pairwise_pySorted_desc _)
  · rw [htake]
    have hle : ((sorted_cats total ratios).take n.toNat).length ≤ n.toNat := by
      rw [List.length_take]
      exact Nat.min_le_left _ _
    calc (((sorted_cats total ratios).take n.toNat).length : ℤ)
        ≤ (n.toNat : ℤ) := by exact_mod_cast hle
      _ = n := Int.toNat_of_nonneg hn
  · intro p hp
    rw [htake] at hp
    refine ⟨?_, rfl⟩
    exact (pySorted_perm descBySnd _).subset (List.take_subset _ _ hp)

/-- Witness for C8 at a concrete input (`top_n = 2`). -/
theorem generate_recommendations_spec_witness :
    ((top_cats 5000 [("카페", 1)] 2).length : ℤ) ≤ 2 :=
  (generate_recommendations_spec [("카페", 5000)] 5000 [("카페", 1)] 2
    (by norm_num)).2.2.1

/-! ## Association-list lemmas and the aggregation invariant -/

theorem alookup_append (k : String) (m1 m2 : List (String × β)) :
    alookup k (m1 ++ m2) =
      match alookup k m1 with
      | some v => some v
      | none => alookup k m2 := by
  induction m1 with
  | nil => simp [alookup]
  | cons hd t ih =>
    obtain ⟨k₂, v⟩ := hd
    by_cases h : k₂ = k <;> simp [alookup, h, ih]

theorem alookup_updateAssoc (k k₀ : String) (f : β → β) (m : List (String × β)) :
    alookup k (updateAssoc k₀ f m) =
      if k = k₀ then (alookup k₀ m).map f else alookup k m := by
  induction m with
  | nil => simp only [updateAssoc, alookup]; split <;> simp
  | cons hd t ih =>
    obtain ⟨k₂, v⟩ := hd
    by_cases h1 : k₂ = k₀
    · subst h1
      by_cases h2 : k₂ = k
      · subst h2; simp [updateAssoc, alookup]
      · simp [updateAssoc, alookup, h2, Ne.symm h2]
    · by_cases h2 : k₂ = k
      · subst h2; simp [updateAssoc, alookup, h1]
      · simp [updateAssoc, alookup, h1, h2, ih]

theorem alookup_upsertAssoc (k k₀ : String) (init : β) (f : β → β)
    (m : List (String × β)) :
    alookup k (upsertAssoc k₀ init f m) =
      if k = k₀ then some (f ((alookup k₀ m).getD init)) else alookup k m := by
  rw [upsertAssoc]
  cases h : alookup k₀ m with
  | some w => rw [alookup_updateAssoc]; simp [h]
  | none =>
    rw [alookup_append]
    cases h2 : alookup k m with
    | some v =>
      split_ifs with hk
      · subst hk; rw [h] at h2; cases h2
      · rfl
    | none =>
      simp only [alookup, h]
      split_ifs with ha hb hb
      · rfl
      · exact absurd ha.symm hb
      · exact absurd hb.symm ha
      · rfl

theorem keys_updateAssoc (k : String) (f : β → β) (m : List (String × β)) :
    (updateAssoc k f m).map (·.1) = m.map (·.1) := by
  induction m with
  | nil => rfl
  | cons hd t ih =>
    obtain ⟨k₂, v⟩ := hd
    by_cases h : k₂ = k <;> simp [updateAssoc, h, ih]

theorem mem_keys_iff_alookup {k : String} {m : List (String × β)} :
    k ∈ m.map (·.1) ↔ (alookup k m).isSome = true := by
  induction m with
  | nil => simp [alookup]
  | cons hd t ih =>
    obtain ⟨k₂, v⟩ := hd
    rw [List.map_cons, List.mem_cons, alookup]
    by_cases h : k₂ = k
    · subst h; simp
    · rw [if_neg h, ih]
      simp [Ne.symm h]

theorem keys_upsertAssoc (k : String) (init : β) (f : β → β) (m : List (String × β)) :
    (upsertAssoc k init f m).map (·.1) =
      if (alookup k m).isSome then m.map (·.1) else m.map (·.1) ++ [k] := by
  rw [upsertAssoc]
  cases h : alookup k m <;> simp [h, keys_updateAssoc]

theorem nodup_keys_upsertAssoc {k : String} {init : β} {f : β → β}
    {m : List (String × β)} (h : (m.map (·.1)).Nodup) :
    ((upsertAssoc k init f m).map (·.1)).Nodup := by
  rw [keys_upsertAssoc]
  split_ifs with hs
  · exact h
  · rw [List.nodup_append]
    refine ⟨h, List.nodup_singleton _, ?_⟩
    intro a ha hb
    rw [List.mem_singleton] at hb
    subst hb
    rw [mem_keys_iff_alookup] at ha
    rw [ha] at hs
    exact hs rfl

theorem nodup_keys_aggStep (row : RawRow) {m : List (String × MonthAcc)}
    (h : (m.map (·.1)).Nodup) : ((aggStep m row).map (·.1)).Nodup := by
  rw [aggStep]
  split
  · exact h
  · split
    · exact h
    · exact nodup_keys_upsertAssoc h

theorem nodup_keys_aggregate_fold (rows : List RawRow) :
    ∀ m : List (String × MonthAcc), (m.map (·.1)).Nodup →
      ((rows.foldl aggStep m).map (·.1)).Nodup := by
  induction rows with
  | nil => intro m h; exact h
  | cons r t ih =>
    intro m h
    exact ih (aggStep m r) (nodup_keys_aggStep r h)

theorem nodup_keys_aggregateMonthly (rows : List RawRow) :
    ((aggregateMonthly rows).map (·.1)).Nodup :=
  nodup_keys_aggregate_fold rows [] (by simp)

theorem sum_snd_updateAssoc_add (k : String) (amt : ℚ) :
    ∀ (ca : List (String × ℚ)) (w : ℚ), alookup k ca = some w →
      ((updateAssoc k (· + amt) ca).map (·.2)).sum = (ca.map (·.2)).sum + amt := by
  intro ca
  induction ca with
  | nil => intro w h; cases h
  | cons hd t ih =>
    obtain ⟨k₂, v⟩ := hd
    intro w h
    by_cases h1 : k₂ = k
    · simp [updateAssoc, h1]
      ring
    · rw [alookup, if_neg h1] at h
      simp only [updateAssoc, if_neg h1, List.map_cons, List.sum_cons, ih w h]
      ring

theorem sum_snd_addAmount (cat : String) (amt : ℚ) (ca : List (String × ℚ)) :
    ((addAmount cat amt ca).map (·.2)).sum = (ca.map (·.2)).sum + amt := by
  rw [addAmount, upsertAssoc]
  cases h : alookup cat ca with
  | some w => exact sum_snd_updateAssoc_add cat amt ca w h
  | none =>
    rw [List.map_append, List.sum_append]
    simp

theorem aggStep_inv (row : RawRow) {m : List (String × MonthAcc)}
    (h : ∀ k acc, alookup k m = some acc →
      (acc.category_amounts.map (·.2)).sum = acc.total_amt) :
    ∀ k acc, alookup k (aggStep m row) = some acc →
      (acc.category_amounts.map (·.2)).sum = acc.total_amt := by
  intro k acc hk
  cases hF : tryFormats row.date.toList with
  | none =>
    simp only [aggStep, hF] at hk
    exact h _ _ hk
  | some v =>
    obtain ⟨y, m', d⟩ := v
    cases hA : row.amount with
    | none =>
      simp only [aggStep, hF, hA] at hk
      exact h _ _ hk
    | some amount =>
      simp only [aggStep, hF, hA] at hk
      rw [alookup_upsertAssoc] at hk
      split_ifs at hk with hkey
      · have hold : (((alookup (ymKey y m') m).getD ⟨[], 0, 0⟩).category_amounts.map
            (·.2)).sum = ((alookup (ymKey y m') m).getD ⟨[], 0, 0⟩).total_amt := by
          cases ho : alookup (ymKey y m') m with
          | some a => simpa [ho] using h _ a ho
          | none => simp [ho]
        injection hk with he
        subst he
        simp only [sum_snd_addAmount]
        rw [hold]
      · exact h _ _ hk

theorem aggregate_fold_inv (rows : List RawRow) :
    ∀ m : List (String × MonthAcc),
      (∀ k acc, alookup k m = some acc →
        (acc.category_amounts.map (·.2)).sum = acc.total_amt) →
      ∀ k acc, alookup k (rows.foldl aggStep m) = some acc →
        (acc.category_amounts.map (·.2)).sum = acc.total_amt := by
  induction rows with
  | nil => intro m h; exact h
  | cons r t ih =>
    intro m h
    exact ih (aggStep m r) (aggStep_inv r h)

theorem aggregate_inv (rows : List RawRow) :
    ∀ k acc, alookup k (aggregateMonthly rows) = some acc →
      (acc.category_amounts.map (·.2)).sum = acc.total_amt :=
  aggregate_fold_inv rows [] (by intro k acc h; cases h)

/-! ## C9 — ratio closure -/

/-- C9: for every aggregated month with strictly positive total amount, the
derived category ratios (as built in `predict`'s result loop) sum to exactly
1 over rational arithmetic (hence within any floating-point tolerance). -/
theorem month_ratio_sum_spec (rows : List RawRow) (ym : String) (acc : MonthAcc)
    (h : alookup ym (aggregateMonthly rows) = some acc)
    (hpos : 0 < acc.total_amt) :
    ((acc.category_amounts.map (fun p => (p.1, p.2 / acc.total_amt))).map (·.2)).sum
      = 1 := by
  have hinv := aggregate_inv rows ym acc h
  have hsum : ((acc.category_amounts.map
      (fun p => (p.1, p.2 / acc.total_amt))).map (·.2)).sum
      = (acc.category_amounts.map (·.2)).sum / acc.total_amt := by
    rw [List.map_map]
    simp only [Function.comp_def, div_eq_mul_inv]
    exact List.sum_map_mul_right acc.category_amounts (fun p => p.2) acc.total_amt⁻¹
  rw [hsum, hinv, div_self (ne_of_gt hpos)]

/-- Witness for C9: one row, one month, one category; the hypotheses are
discharged at the concrete aggregate (whose amounts appear in the
unreduced form produced by the accumulator). -/
theorem month_ratio_sum_spec_witness :
    (([("카페", (0 : ℚ) + 5000)].map
      (fun p : String × ℚ => (p.1, p.2 / ((0 : ℚ) + 5000)))).map (·.2)).sum = 1 :=
  month_ratio_sum_spec [⟨"2024-03-15", some 5000, "스타벅스", ""⟩] "2024-03"
    ⟨[("카페", 0 + 5000)], 0 + 5000, 0 + 1⟩ rfl (by norm_num)

/-! ## C5 — pipeline output months -/

theorem buildMonthlyResult_month (peers : List ℚ) (ym : String) (acc : MonthAcc) :
    (buildMonthlyResult peers ym acc).month = ym := rfl

theorem months_filterMap (monthly : List (String × MonthAcc)) (peers : List ℚ)
    (l : List String) :
    ((l.filterMap (fun ym =>
        match alookup ym monthly with
        | none => none
        | some acc =>
          if acc.total_amt ≤ 0 then none
          else some (buildMonthlyResult peers ym acc))).map (·.month))
      = l.filter (predKeep monthly) := by
  induction l with
  | nil => rfl
  | cons a t ih =>
    rw [List.filterMap_cons, List.filter_cons]
    cases h : alookup a monthly with
    | none => simp [predKeep, h, ih]
    | some acc =>
      by_cases hp : acc.total_amt ≤ 0
      · have hnp : ¬ (0 < acc.total_amt) := not_lt.mpr hp
        simp [predKeep, h, hp, hnp, ih]
      · have hpp : 0 < acc.total_amt := lt_of_not_le hp
        simp [predKeep, h, hp, hpp, ih, buildMonthlyResult_month]

theorem strLt_asymm (x y : String) (h : strLt x y = true) : strLt y x = false := by
  simp only [strLt, decide_eq_true_eq] at h
  simp only [strLt, decide_eq_false_iff_not, not_lt]
  exact le_of_lt h

theorem strLt_negtrans (x y z : String) (h1 : strLt x y = false)
    (h2 : strLt y z = false) : strLt x z = false := by
  simp only [strLt, decide_eq_false_iff_not, not_lt] at h1 h2 ⊢
  exact h2.trans h1

/-- C5: for every input row sequence and peer distribution, `predict`'s
output months are strictly increasing (hence each month appears exactly
once), and a month appears iff it was aggregated with a strictly positive
total amount. -/
theorem predict_months_spec (rows : List RawRow) (peers : List ℚ) :
    ((predict rows peers).map (·.month)).Pairwise (· < ·) ∧
    (∀ ym, ym ∈ (predict rows peers).map (·.month) ↔
      ∃ acc, alookup ym (aggregateMonthly rows) = some acc ∧ 0 < acc.total_amt) := by
  have hmonths : (predict rows peers).map (·.month) =
      (pySorted strLt ((aggregateMonthly rows).map (·.1))).filter
        (predKeep (aggregateMonthly rows)) :=
    months_filterMap (aggregateMonthly rows) peers _
  constructor
  · rw [hmonths]
    apply List.Pairwise.filter
    have hperm := pySorted_perm strLt ((aggregateMonthly rows).map (·.1))
    have hnd : (pySorted strLt ((aggregateMonthly rows).map (·.1))).Nodup :=
      hperm.nodup_iff.mpr (nodup_keys_aggregateMonthly rows)
    have hsorted := pairwise_pySorted strLt strLt_asymm strLt_negtrans
      ((aggregateMonthly rows).map (·.1))
    have hle : (pySorted strLt ((aggregateMonthly rows).map (·.1))).Pairwise (· ≤ ·) :=
      hsorted.imp (fun hxy => by
        have := hxy
        simp only [strLt, decide_eq_false_iff_not, not_lt] at this
        exact this)
    exact (hle.and hnd).imp (fun hab => lt_of_le_of_ne hab.1 hab.2)
  · intro ym
    rw [hmonths, List.mem_filter]
    constructor
    · rintro ⟨_, hkeep⟩
      unfold predKeep at hkeep
      split at hkeep
      · cases hkeep
      · rename_i acc heq
        exact ⟨acc, heq, of_decide_eq_true hkeep⟩
    · rintro ⟨acc, hacc, hpos⟩
      refine ⟨?_, ?_⟩
      · apply (pySorted_perm strLt _).mem_iff.mpr
        exact mem_keys_iff_alookup.mpr (by simp [hacc])
      · unfold predKeep
        rw [hacc]
        simpa using hpos

/-! ## C7 — date parsing: digit-rendering lemmas -/

theorem isDigit_digitChar {k : ℕ} (h : k < 10) :
    (Char.ofNat (48 + k)).isDigit = true := by
  interval_cases k <;> decide

theorem not_ws_digitChar {k : ℕ} (h : k < 10) :
    (Char.ofNat (48 + k)).isWhitespace = false := by
  interval_cases k <;> decide

theorem digitVal_digitChar {k : ℕ} (h : k < 10) :
    digitVal (Char.ofNat (48 + k)) = k := by
  interval_cases k <;> decide

theorem readNat_two {a b : ℕ} (ha : a < 10) (hb : b < 10) :
    readNat [Char.ofNat (48 + a), Char.ofNat (48 + b)] = 10 * a + b := by
  simp [readNat, digitVal_digitChar, ha, hb]

theorem readNat_four {a b c d : ℕ} (ha : a < 10) (hb : b < 10) (hc : c < 10)
    (hd : d < 10) :
    readNat [Char.ofNat (48 + a), Char.ofNat (48 + b), Char.ofNat (48 + c),
      Char.ofNat (48 + d)] = 1000 * a + 100 * b + 10 * c + d := by
  simp [readNat, digitVal_digitChar, ha, hb, hc, hd]
  ring

theorem dropWhile_eq_self_of_not {l : List Char}
    (h : ∀ c ∈ l, c.isWhitespace = false) :
    l.dropWhile Char.isWhitespace = l := by
  cases l with
  | nil => rfl
  | cons a t =>
    rw [List.dropWhile_cons, h a (List.mem_cons_self a t)]
    simp

theorem pyStrip_eq_self {l : List Char} (h : ∀ c ∈ l, c.isWhitespace = false) :
    pyStrip l = l := by
  rw [pyStrip, dropWhile_eq_self_of_not h,
    dropWhile_eq_self_of_not (fun c hc => h c (List.mem_reverse.mp hc)),
    List.reverse_reverse]

theorem toList_canonicalSep (sep : Char) (y m d : ℕ) :
    (canonicalSep sep y m d).toList =
      [Char.ofNat (48 + y / 1000), Char.ofNat (48 + y / 100 % 10),
       Char.ofNat (48 + y / 10 % 10), Char.ofNat (48 + y % 10), sep,
       Char.ofNat (48 + m / 10), Char.ofNat (48 + m % 10), sep,
       Char.ofNat (48 + d / 10), Char.ofNat (48 + d % 10)] := rfl

theorem toList_compactForm (y m d : ℕ) :
    (compactForm y m d).toList =
      [Char.ofNat (48 + y / 1000), Char.ofNat (48 + y / 100 % 10),
       Char.ofNat (48 + y / 10 % 10), Char.ofNat (48 + y % 10),
       Char.ofNat (48 + m / 10), Char.ofNat (48 + m % 10),
       Char.ofNat (48 + d / 10), Char.ofNat (48 + d % 10)] := rfl

theorem daysInMonth_le (y m : ℕ) : daysInMonth y m ≤ 31 := by
  rw [daysInMonth]
  split_ifs <;> omega

theorem strptimeSep_canonicalSep {y m d : ℕ} (sep : Char)
    (hsd : sep.isDigit = false) (hv : validDate y m d) :
    strptimeSep sep (canonicalSep sep y m d).toList = some (y, m, d) := by
  obtain ⟨hy1, hy2, hm1, hm2, hd1, hd2⟩ := hv
  have hd31 : d ≤ 31 := hd2.trans (daysInMonth_le y m)
  have hy3 : y / 1000 < 10 := by omega
  have hy4 : y / 100 % 10 < 10 := Nat.mod_lt _ (by norm_num)
  have hy5 : y / 10 % 10 < 10 := Nat.mod_lt _ (by norm_num)
  have hy6 : y % 10 < 10 := Nat.mod_lt _ (by norm_num)
  have hm3 : m / 10 < 10 := by omega
  have hm4 : m % 10 < 10 := Nat.mod_lt _ (by norm_num)
  have hd3 : d / 10 < 10 := by omega
  have hd4 : d % 10 < 10 := Nat.mod_lt _ (by norm_num)
  have hready : readNat [Char.ofNat (48 + y / 1000), Char.ofNat (48 + y / 100 % 10),
      Char.ofNat (48 + y / 10 % 10), Char.ofNat (48 + y % 10)] = y := by
    rw [readNat_four hy3 hy4 hy5 hy6]; omega
  have hreadm : readNat [Char.ofNat (48 + m / 10), Char.ofNat (48 + m % 10)] = m := by
    rw [readNat_two hm3 hm4]; omega
  have hreadd : readNat [Char.ofNat (48 + d / 10), Char.ofNat (48 + d % 10)] = d := by
    rw [readNat_two hd3 hd4]; omega
  have hvd : validDate y m d := ⟨hy1, hy2, hm1, hm2, hd1, hd2⟩
  rw [toList_canonicalSep, strptimeSep]
  simp only [List.takeWhile_cons, List.dropWhile_cons,
    isDigit_digitChar hy3, isDigit_digitChar hy4, isDigit_digitChar hy5,
    isDigit_digitChar hy6, isDigit_digitChar hm3, isDigit_digitChar hm4,
    isDigit_digitChar hd3, isDigit_digitChar hd4, hsd,
    List.takeWhile_nil, List.dropWhile_nil, if_true, if_false,
    Bool.false_eq_true, ite_true, ite_false]
  simp only [hready, hreadm, hreadd, List.length_cons, List.length_nil]
  simp [hvd]

theorem strptimeSep_canonicalSep_ne {y m d : ℕ} (sep sep' : Char)
    (hsd : sep.isDigit = false) (hne : sep ≠ sep') (hv : validDate y m d) :
    strptimeSep sep' (canonicalSep sep y m d).toList = none := by
  obtain ⟨hy1, hy2, hm1, hm2, hd1, hd2⟩ := hv
  have hd31 : d ≤ 31 := hd2.trans (daysInMonth_le y m)
  have hy3 : y / 1000 < 10 := by omega
  have hy4 : y / 100 % 10 < 10 := Nat.mod_lt _ (by norm_num)
  have hy5 : y / 10 % 10 < 10 := Nat.mod_lt _ (by norm_num)
  have hy6 : y % 10 < 10 := Nat.mod_lt _ (by norm_num)
  have hm3 : m / 10 < 10 := by omega
  have hm4 : m % 10 < 10 := Nat.mod_lt _ (by norm_num)
  have hd3 : d / 10 < 10 := by omega
  have hd4 : d % 10 < 10 := Nat.mod_lt _ (by norm_num)
  rw [toList_canonicalSep, strptimeSep]
  simp only [List.takeWhile_cons, List.dropWhile_cons,
    isDigit_digitChar hy3, isDigit_digitChar hy4, isDigit_digitChar hy5,
    isDigit_digitChar hy6, isDigit_digitChar hm3, isDigit_digitChar hm4,
    isDigit_digitChar hd3, isDigit_digitChar hd4, hsd,
    List.takeWhile_nil, List.dropWhile_nil, if_true, if_false,
    Bool.false_eq_true, ite_true, ite_false]
  simp [hne]

theorem strptimeSep_compactForm {y m d : ℕ} (sep : Char) (hv : validDate y m d) :
    strptimeSep sep (compactForm y m d).toList = none := by
  obtain ⟨hy1, hy2, hm1, hm2, hd1, hd2⟩ := hv
  have hd31 : d ≤ 31 := hd2.trans (daysInMonth_le y m)
  have hy3 : y / 1000 < 10 := by omega
  have hy4 : y / 100 % 10 < 10 := Nat.mod_lt _ (by norm_num)
  have hy5 : y / 10 % 10 < 10 := Nat.mod_lt _ (by norm_num)
  have hy6 : y % 10 < 10 := Nat.mod_lt _ (by norm_num)
  have hm3 : m / 10 < 10 := by omega
  have hm4 : m % 10 < 10 := Nat.mod_lt _ (by norm_num)
  have hd3 : d / 10 < 10 := by omega
  have hd4 : d % 10 < 10 := Nat.mod_lt _ (by norm_num)
  rw [toList_compactForm, strptimeSep]
  simp only [List.takeWhile_cons, List.dropWhile_cons,
    isDigit_digitChar hy3, isDigit_digitChar hy4, isDigit_digitChar hy5,
    isDigit_digitChar hy6, isDigit_digitChar hm3, isDigit_digitChar hm4,
    isDigit_digitChar hd3, isDigit_digitChar hd4,
    List.takeWhile_nil, List.dropWhile_nil, if_true, if_false,
    Bool.false_eq_true, ite_true, ite_false]

theorem compact_md {m d : ℕ} (hm1 : 1 ≤ m) (hm2 : m ≤ 12) (hd1 : 1 ≤ d)
    (hd2 : d ≤ 31) :
    ((monthCands [Char.ofNat (48 + m / 10), Char.ofNat (48 + m % 10),
        Char.ofNat (48 + d / 10), Char.ofNat (48 + d % 10)]).findSome? (fun mc =>
      (dayCands mc.2).findSome? (fun dc =>
        if dc.2.isEmpty then some (mc.1, dc.1) else none))) = some (m, d) := by
  interval_cases m <;> interval_cases d <;> decide

theorem strptimeCompact_compactForm {y m d : ℕ} (hv : validDate y m d) :
    strptimeCompact (compactForm y m d).toList = some (y, m, d) := by
  obtain ⟨hy1, hy2, hm1, hm2, hd1, hd2⟩ := hv
  have hd31 : d ≤ 31 := hd2.trans (daysInMonth_le y m)
  have hy3 : y / 1000 < 10 := by omega
  have hy4 : y / 100 % 10 < 10 := Nat.mod_lt _ (by norm_num)
  have hy5 : y / 10 % 10 < 10 := Nat.mod_lt _ (by norm_num)
  have hy6 : y % 10 < 10 := Nat.mod_lt _ (by norm_num)
  have hready : readNat [Char.ofNat (48 + y / 1000), Char.ofNat (48 + y / 100 % 10),
      Char.ofNat (48 + y / 10 % 10), Char.ofNat (48 + y % 10)] = y := by
    rw [readNat_four hy3 hy4 hy5 hy6]; omega
  have hvd : validDate y m d := ⟨hy1, hy2, hm1, hm2, hd1, hd2⟩
  rw [toList_compactForm, strptimeCompact]
  simp only [isDigit_digitChar hy3, isDigit_digitChar hy4, isDigit_digitChar hy5,
    isDigit_digitChar hy6, compact_md hm1 hm2 hd1 hd31, hready]
  simp [hvd]

theorem ws_canonicalSep {y m d : ℕ} (sep : Char) (hsw : sep.isWhitespace = false)
    (hv : validDate y m d) :
    ∀ c ∈ (canonicalSep sep y m d).toList, c.isWhitespace = false := by
  obtain ⟨hy1, hy2, hm1, hm2, hd1, hd2⟩ := hv
  have hd31 : d ≤ 31 := hd2.trans (daysInMonth_le y m)
  intro c hc
  rw [toList_canonicalSep] at hc
  simp only [List.mem_cons, List.not_mem_nil, or_false] at hc
  rcases hc with rfl | rfl | rfl | rfl | rfl | rfl | rfl | rfl | rfl | rfl
  · exact not_ws_digitChar (by omega)
  · exact not_ws_digitChar (Nat.mod_lt _ (by norm_num))
  · exact not_ws_digitChar (Nat.mod_lt _ (by norm_num))
  · exact not_ws_digitChar (Nat.mod_lt _ (by norm_num))
  · exact hsw
  · exact not_ws_digitChar (by omega)
  · exact not_ws_digitChar (Nat.mod_lt _ (by norm_num))
  · exact hsw
  · exact not_ws_digitChar (by omega)
  · exact not_ws_digitChar (Nat.mod_lt _ (by norm_num))

theorem ws_compactForm {y m d : ℕ} (hv : validDate y m d) :
    ∀ c ∈ (compactForm y m d).toList, c.isWhitespace = false := by
  obtain ⟨hy1, hy2, hm1, hm2, hd1, hd2⟩ := hv
  have hd31 : d ≤ 31 := hd2.trans (daysInMonth_le y m)
  intro c hc
  rw [toList_compactForm] at hc
  simp only [List.mem_cons, List.not_mem_nil, or_false] at hc
  rcases hc with rfl | rfl | rfl | rfl | rfl | rfl | rfl | rfl
  · exact not_ws_digitChar (by omega)
  · exact not_ws_digitChar (Nat.mod_lt _ (by norm_num))
  · exact not_ws_digitChar (Nat.mod_lt _ (by norm_num))
  · exact not_ws_digitChar (Nat.mod_lt _ (by norm_num))
  · exact not_ws_digitChar (by omega)
  · exact not_ws_digitChar (Nat.mod_lt _ (by norm_num))
  · exact not_ws_digitChar (by omega)
  · exact not_ws_digitChar (Nat.mod_lt _ (by norm_num))

theorem canonicalSep_ne_empty (sep : Char) (y m d : ℕ) :
    canonicalSep sep y m d ≠ "" := by
  intro h
  have h2 := congrArg String.toList h
  rw [toList_canonicalSep] at h2
  simp [String.toList] at h2

theorem compactForm_ne_empty (y m d : ℕ) : compactForm y m d ≠ "" := by
  intro h
  have h2 := congrArg String.toList h
  rw [toList_compactForm] at h2
  simp [String.toList] at h2

theorem parse_date_dash {y m d : ℕ} (hv : validDate y m d) :
    parse_date (canonicalSep '-' y m d) = some (canonical y m d) := by
  rw [parse_date, if_neg (canonicalSep_ne_empty '-' y m d),
    pyStrip_eq_self (ws_canonicalSep '-' (by decide) hv), tryFormats,
    strptimeSep_canonicalSep '-' (by decide) hv]
  rfl

theorem parse_date_slash {y m d : ℕ} (hv : validDate y m d) :
    parse_date (canonicalSep '/' y m d) = some (canonical y m d) := by
  rw [parse_date, if_neg (canonicalSep_ne_empty '/' y m d),
    pyStrip_eq_self (ws_canonicalSep '/' (by decide) hv), tryFormats,
    strptimeSep_canonicalSep_ne '/' '-' (by decide) (by decide) hv,
    strptimeSep_canonicalSep '/' (by decide) hv]
  rfl

theorem parse_date_dot {y m d : ℕ} (hv : validDate y m d) :
    parse_date (canonicalSep '.' y m d) = some (canonical y m d) := by
  rw [parse_date, if_neg (canonicalSep_ne_empty '.' y m d),
    pyStrip_eq_self (ws_canonicalSep '.' (by decide) hv), tryFormats,
    strptimeSep_canonicalSep_ne '.' '-' (by decide) (by decide) hv,
    strptimeSep_canonicalSep_ne '.' '/' (by decide) (by decide) hv,
    strptimeSep_canonicalSep '.' (by decide) hv]
  rfl

theorem parse_date_compact {y m d : ℕ} (hv : validDate y m d) :
    parse_date (compactForm y m d) = some (canonical y m d) := by
  rw [parse_date, if_neg (compactForm_ne_empty y m d),
    pyStrip_eq_self (ws_compactForm hv), tryFormats,
    strptimeSep_compactForm '-' hv, strptimeSep_compactForm '/' hv,
    strptimeSep_compactForm '.' hv, strptimeCompact_compactForm hv]
  rfl

theorem strptimeSep_valid {sep : Char} {l : List Char} {y m d : ℕ}
    (h : strptimeSep sep l = some (y, m, d)) : validDate y m d := by
  unfold strptimeSep at h
  split at h
  · split at h
    · simp only [] at h
      split_ifs at h with hcond
      simp only [Option.some.injEq, Prod.mk.injEq] at h
      obtain ⟨h1, h2, h3⟩ := h
      subst h1; subst h2; subst h3
      exact hcond.2.2.2.2.2.2
    · cases h
  · cases h

theorem strptimeCompact_valid {l : List Char} {y m d : ℕ}
    (h : strptimeCompact l = some (y, m, d)) : validDate y m d := by
  unfold strptimeCompact at h
  split at h
  · split_ifs at h with hdig
    · split at h
      · split_ifs at h with hvd
        simp only [Option.some.injEq, Prod.mk.injEq] at h
        obtain ⟨h1, h2, h3⟩ := h
        subst h1; subst h2; subst h3
        exact hvd
      · cases h
  · cases h

theorem tryFormats_valid {l : List Char} {y m d : ℕ}
    (h : tryFormats l = some (y, m, d)) : validDate y m d := by
  rw [tryFormats] at h
  cases o1 : strptimeSep '-' l with
  | some v =>
    rw [o1] at h
    simp only [Option.some_orElse] at h
    have hv2 : v = (y, m, d) := Option.some.inj h
    subst hv2
    exact strptimeSep_valid o1
  | none =>
    rw [o1, Option.none_orElse] at h
    cases o2 : strptimeSep '/' l with
    | some v =>
      rw [o2] at h
      simp only [Option.some_orElse] at h
      have hv2 : v = (y, m, d) := Option.some.inj h
      subst hv2
      exact strptimeSep_valid o2
    | none =>
      rw [o2, Option.none_orElse] at h
      cases o3 : strptimeSep '.' l with
      | some v =>
        rw [o3] at h
        simp only [Option.some_orElse] at h
        have hv2 : v = (y, m, d) := Option.some.inj h
        subst hv2
        exact strptimeSep_valid o3
      | none =>
        rw [o3, Option.none_orElse] at h
        exact strptimeCompact_valid h

theorem parse_date_some {s r : String} (h : parse_date s = some r) :
    ∃ y m d, validDate y m d ∧ r = canonical y m d := by
  rw [parse_date] at h
  split_ifs at h
  cases heq : tryFormats (pyStrip s.toList) with
  | none => rw [heq] at h; cases h
  | some v =>
    obtain ⟨y, m', d⟩ := v
    rw [heq] at h
    exact ⟨y, m', d, tryFormats_valid heq, (Option.some.inj h).symm⟩

/-- C7: date parsing accepts the four formats in priority order and returns
the canonical dashed rendering: for every valid calendar date, the dashed,
slashed, dotted and compact renderings all parse to the canonical form — in
particular parsing is idempotent on the canonical form — and every
successful parse of any string returns the canonical rendering of a valid
calendar date (strings matched by none of the four formats parse to
nothing, by the four-format attempt chain). -/
theorem parse_date_spec :
    (∀ y m d : ℕ, validDate y m d →
      parse_date (canonicalSep '-' y m d) = some (canonical y m d) ∧
      parse_date (canonicalSep '/' y m d) = some (canonical y m d) ∧
      parse_date (canonicalSep '.' y m d) = some (canonical y m d) ∧
      parse_date (compactForm y m d) = some (canonical y m d)) ∧
    (∀ s r, parse_date s = some r →
      ∃ y m d, validDate y m d ∧ r = canonical y m d) :=
  ⟨fun _ _ _ hv =>
    ⟨parse_date_dash hv, parse_date_slash hv, parse_date_dot hv,
     parse_date_compact hv⟩,
   fun _ _ h => parse_date_some h⟩

/-- Witness for C7 at a concrete valid leap-day date. -/
theorem parse_date_spec_witness :
    parse_date (canonicalSep '-' 2024 2 29) = some (canonical 2024 2 29) ∧
    parse_date (canonicalSep '/' 2024 2 29) = some (canonical 2024 2 29) ∧
    parse_date (canonicalSep '.' 2024 2 29) = some (canonical 2024 2 29) ∧
    parse_date (compactForm 2024 2 29) = some (canonical 2024 2 29) :=
  parse_date_spec.1 2024 2 29 (by decide)

end GreenCarbon
